import Mathlib

/-!
Verification development for the `crawl` repository: a level-synchronous
breadth-first web crawler.  The repository contains three snapshots of the
same crawler package:

* `src/src/crawler/crawler.go` and `src/src/crawler/result.go` (namespace
  `CrawlerGo` / `ResultGo` below),
* `src/unnamed/part_000`, a later snapshot built on a `data` package
  (namespace `Part000`),
* `src/unnamed/part_001`, a snapshot with the crawl state machine spelled
  out as `crawlfn` functions (namespace `Part001`).

Pure fragments of the Go source are embedded as executable Lean functions;
the concurrent runtime of `part_001` is embedded as an explicit small-step
transition system over a machine state, with one action per goroutine step,
so that individual interleavings can be replayed and inspected.

External collaborators that are not part of the repository (the `net/url`
resolver, the `scrape` helpers, and the `robotstxt` matcher library) are
modelled from the specification's description of them; each such definition
carries a doc comment saying so.
-/

namespace Crawl

/-! ## URL model

Modelled from the spec: the URL resolver is an external collaborator that
"makes absolute URLs from base+relative"; an Address is "a canonicalized
absolute URL" and "fragments are stripped". -/

/-- A parsed URL, the shape `net/url` exposes to `result.go`.  Only the
components the crawler reads are modelled. -/
structure URL where
  scheme : String
  host : String
  path : String
  query : String
  fragment : String
deriving DecidableEq

/-- A URL is absolute when it carries a scheme, as in `net/url`. -/
def URL.isAbs (u : URL) : Bool := u.scheme != ""

/-- Modelled from the spec: `(*url.URL).ResolveReference` for the slice of
behaviour the crawler depends on.  An absolute reference stands on its own;
otherwise the base supplies the missing scheme (and host), which is what
makes every resolved target absolute when the base is. -/
def resolveReference (base ref : URL) : URL :=
  if ref.scheme != "" then ref
  else if ref.host != "" then { ref with scheme := base.scheme }
  else { scheme := base.scheme, host := base.host,
         path := if ref.path = "" then base.path else ref.path,
         query := ref.query, fragment := ref.fragment }

/-! ## HTML tree and the scrape helpers

The HTML parser and the `src/scrape` package are external to the files under
`src/`; they are modelled from the spec: the parser "consumes a byte stream,
produces a document tree", and link extraction "enumerates all `<a>`
elements", reads attributes, and takes "the concatenated text of the
element". -/

/-- An HTML document node: a text node, or an element with a tag name, an
attribute list and children. -/
inductive HNode where
  | text (s : String)
  | elem (tag : String) (attrs : List (String × String)) (children : List HNode)

/-- Modelled from the spec: `scrape.GetAttribute` returns the value of the
named attribute on the given node, or the empty string when absent (or when
the node is a text node). -/
def getAttribute (name : String) (n : HNode) : String :=
  match n with
  | .text _ => ""
  | .elem _ attrs _ =>
    match attrs.lookup name with
    | some v => v
    | none => ""

mutual

/-- Modelled from the spec: `scrape.GetText` is the concatenated text of the
element. -/
def getText : HNode → String
  | .text s => s
  | .elem _ _ cs => getTextList cs

/-- Concatenated text of a list of sibling nodes. -/
def getTextList : List HNode → String
  | [] => ""
  | c :: cs => getText c ++ getTextList cs

end

mutual

/-- Modelled from the spec: `scrape.GetNodesByTagName` enumerates, in
document order, every element node whose tag is the given name. -/
def getNodesByTagName (tag : String) : HNode → List HNode
  | .text _ => []
  | .elem t attrs cs =>
    (if t = tag then [HNode.elem t attrs cs] else []) ++ getNodesByTagNameList tag cs

/-- The element nodes with the given tag below a list of sibling nodes. -/
def getNodesByTagNameList (tag : String) : List HNode → List HNode
  | [] => []
  | c :: cs => getNodesByTagName tag c ++ getNodesByTagNameList tag cs

end

namespace ResultGo

/-! Embedding of `src/src/crawler/result.go`. -/

/-- The link record produced by `getLinks` in `result.go`: a resolved target
URL, the anchor text, and the nofollow flag. -/
structure GoLink where
  target : URL
  anchorText : String
  nofollow : Bool
deriving DecidableEq

/-- Embeds `getLinks` from `src/src/crawler/result.go` lines 94-108.  For
every `<a>` element it parses the `href`, resolves it against the request
URL, clears the fragment, and builds one link.  `parseURL` stands for
`url.Parse` (external; modelled as a total parsing function).  Note the
faithful detail that the `rel` attribute is read from `n` — the document
node passed to `getLinks` — and not from the `<a>` element `a`, and that it
is compared with `==` against the exact string `nofollow`. -/
def getLinks (parseURL : String → URL) (base : URL) (n : HNode) : List GoLink :=
  (getNodesByTagName "a" n).map (fun a =>
    let h := parseURL (getAttribute "href" a)
    let t0 := resolveReference base h
    let t := { t0 with fragment := "" }
    { target := t, anchorText := getText a,
      nofollow := getAttribute "rel" n == "nofollow" })

end ResultGo

/-! ## URL filter

`WillCrawl` in `src/unnamed/part_001` lines 120-137 and `willCrawl` in
`src/unnamed/part_000` lines 139-163 are textually identical.  A compiled
regular expression is modelled as its matching function `String → Bool`
(`regexp.MatchString`, the unanchored substring test, is external). -/

/-- Embeds `willCrawl`: scan the exclude patterns, rejecting on the first
match; then the include patterns, accepting on the first match; then reject
exactly when the include list is non-empty. -/
def willCrawl (excludePatterns includePatterns : List (String → Bool))
    (fullurl : String) : Bool :=
  if excludePatterns.any (fun p => p fullurl) then false
  else if includePatterns.any (fun p => p fullurl) then true
  else if includePatterns.length > 0 then false
  else true

/-! ## Robots cache

The matcher type and its null behaviour come from the external
`github.com/temoto/robotstxt` library, which the spec lists as an external
collaborator; both are modelled from the spec. -/

/-- Modelled from the spec: a robots matcher "answers allow/deny queries for
a given user-agent and path".  `m path agent = true` means allow. -/
def Matcher : Type := String → String → Bool

/-- Modelled from the spec: a query against a null/absent matcher "is
treated as allow" (`TestAgent` on a nil `*robotstxt.RobotsData`). -/
def testAgent (m : Option Matcher) (path agent : String) : Bool :=
  match m with
  | none => true
  | some f => f path agent

/-- The observable part of a `/robots.txt` HTTP response together with what
`robotstxt.FromResponse` makes of it: `fromResponse = none` models a parse
error, `some m` a successfully built matcher.  The `robotstxt` library is
external, so `fromResponse` is carried as data rather than computed. -/
structure RobotsHttp where
  statusCode : Int
  fromResponse : Option Matcher

/-- The `robots` map of a `Crawler`, keyed by host.  An entry `(h, none)`
is a host stored with a nil matcher; an absent key is a host never looked
up.  Insertion prepends, lookup takes the first binding, matching Go map
semantics for this use. -/
def RobotsCache : Type := List (String × Option Matcher)

/-- Store (or overwrite) the matcher for a host. -/
def cacheInsert (c : RobotsCache) (host : String) (m : Option Matcher) : RobotsCache :=
  (host, m) :: c

/-- Look a host up in the cache; `some none` means a stored nil matcher. -/
def cacheLookup (c : RobotsCache) (host : String) : Option (Option Matcher) :=
  List.lookup host c

namespace Part001

/-- Embeds `addRobots` from `src/unnamed/part_001` lines 139-159 (the
`addRobots` of `src/unnamed/part_000` lines 168-191 is the same): record the
host with a nil matcher, then overwrite it with the parsed matcher only if
the HTTP fetch succeeded, the status is 200, and the body parsed.  The URL
parse of the argument is elided: the host is passed directly, and
`robotsNet host` models `http.Get` on the host's robots.txt URL (`none` is
an HTTP error). -/
def addRobots (robotsNet : String → Option RobotsHttp) (cache : RobotsCache)
    (host : String) : RobotsCache :=
  let cache1 := cacheInsert cache host none
  match robotsNet host with
  | none => cache1
  | some resp =>
    if resp.statusCode ≠ 200 then cache1
    else
      match resp.fromResponse with
      | none => cache1
      | some m => cacheInsert cache1 host (some m)

/-- Embeds the cache-miss guard shared by `crawlCheckRobots` in
`src/unnamed/part_001` lines 202-204 and `work` in
`src/src/crawler/crawler.go` lines 149-151: `addRobots` runs only when the
host has no entry at all, so a cached entry — nil or not — is never
refreshed. -/
def ensureRobots (robotsNet : String → Option RobotsHttp) (cache : RobotsCache)
    (host : String) : RobotsCache :=
  match cacheLookup cache host with
  | some _ => cache
  | none => addRobots robotsNet cache host

end Part001

namespace CrawlerGo

/-- Embeds `addRobots` from `src/src/crawler/crawler.go` lines 113-130:
record the host with a nil matcher, return on an HTTP error, but otherwise
store whatever `robotstxt.FromResponse` returns — the status code is never
consulted and the parse error is discarded (`robots, _ :=`). -/
def addRobots (robotsNet : String → Option RobotsHttp) (cache : RobotsCache)
    (host : String) : RobotsCache :=
  let cache1 := cacheInsert cache host none
  match robotsNet host with
  | none => cache1
  | some resp => cacheInsert cache1 host resp.fromResponse

end CrawlerGo

/-! ## Results and links -/

/-- The slice of a `Result` record the claims observe: the request address,
the crawl depth, the status line, and the numeric status code.
`MakeResult(addr, depth)` fills only the first two. -/
structure CResult where
  address : String
  depth : Int
  status : String
  statusCode : Int
deriving DecidableEq

/-- Embeds `MakeResult`: a fresh result for an address at a depth, with no
response fields populated. -/
def makeResult (addr : String) (depth : Int) : CResult :=
  { address := addr, depth := depth, status := "", statusCode := 0 }

/-- A link as the frontier sees it: the full text of the (already resolved)
target address — `none` models a nil `*Address` — and the nofollow flag. -/
structure FLink where
  address : Option String
  anchorText : String
  nofollow : Bool
deriving DecidableEq

namespace Part001

/-- Embeds the response-handling tail of `fetch`, identical in
`src/unnamed/part_000` lines 249-257 and `src/unnamed/part_001` lines
283-297: hydrate the result, default `ResolvesTo` to the request address,
and on a 3xx status overwrite `ResolvesTo` with the Location header resolved
against the request address and replace the handed-off link list with the
single synthetic link `MakeLink(addr, location, "", false)`.  `resolve`
stands for `data.MakeAddressFromRelative` (modelled from the spec: the URL
resolver makes an absolute URL from base+relative); `makeLink` below applies
it the way `data.MakeLink` does. -/
structure FetchOutcome where
  resolvesTo : String
  handed : List FLink
  resultLinks : List FLink
deriving DecidableEq

/-- Modelled from the spec: `data.MakeLink base href text nofollow` builds a
link whose target is `href` resolved against `base` (the `data` package of
the `part_000`/`part_001` snapshots is not under `src/`). -/
def makeLink (resolve : String → String → String) (base href text : String)
    (nofollow : Bool) : FLink :=
  { address := some (resolve base href), anchorText := text, nofollow := nofollow }

/-- Embeds `fetch`'s assembly of the emitted result and the link list handed
to the merge stage (`src/unnamed/part_001` lines 283-297). -/
def fetchAssemble (resolve : String → String → String) (addrFull : String)
    (statusCode : Int) (locationHeader : String) (extracted : List FLink) :
    FetchOutcome :=
  let links := extracted
  let resolvesTo := addrFull
  if 300 ≤ statusCode ∧ statusCode < 400 then
    { resolvesTo := resolve addrFull locationHeader,
      handed := [makeLink resolve addrFull locationHeader "" false],
      resultLinks := links }
  else
    { resolvesTo := resolvesTo, handed := links, resultLinks := links }

end Part001

namespace Part000

/-- Embeds `merge` from `src/unnamed/part_000` lines 213-231, the body of
the per-link loop: skip nil addresses, filtered addresses, already-seen
addresses, and nofollow links when `RespectNofollow` is set; otherwise mark
seen and append the address to the next-level queue. -/
def mergeLink (respectNofollow : Bool)
    (excludePatterns includePatterns : List (String → Bool))
    (seenAndNext : List String × List String) (link : FLink) :
    List String × List String :=
  match link.address with
  | none => seenAndNext
  | some full =>
    if ¬ willCrawl excludePatterns includePatterns full then seenAndNext
    else if seenAndNext.1.contains full then seenAndNext
    else if link.nofollow && respectNofollow then seenAndNext
    else (full :: seenAndNext.1, seenAndNext.2 ++ [full])

/-- Embeds `merge` from `src/unnamed/part_000` lines 213-231 in full,
including its leading guard: unless the current depth is strictly below
`MaxDepth` the whole link list is discarded ("This is how the crawler
terminates").  Returns the updated seen set and next-level queue. -/
def merge (depth maxDepth : Int) (respectNofollow : Bool)
    (excludePatterns includePatterns : List (String → Bool))
    (seen : List String) (nextqueue : List String) (links : List FLink) :
    List String × List String :=
  if ¬ (depth < maxDepth) then (seen, nextqueue)
  else links.foldl (mergeLink respectNofollow excludePatterns includePatterns)
    (seen, nextqueue)

end Part000

/-- Embeds the depth guard shared by `work` in `src/src/crawler/crawler.go`
line 146 and `crawlStart` in `src/unnamed/part_001` line 191: an entry is
dropped for depth exactly when `node.Depth > c.MaxDepth && c.MaxDepth >= 0`.
-/
def depthSkip (maxDepth depth : Int) : Bool :=
  decide (depth > maxDepth ∧ maxDepth ≥ 0)

namespace CrawlerGo

/-! ## The `src/src/crawler/crawler.go` engine

`Crawl` runs `for len(c.queue) > 0 { c.work() }` in one goroutine; `work`
dispatches a fetch per surviving queue entry, waits for all of them, and
then merges every `newnodes` list into the fresh queue.  Because the barrier
(`wg.Wait`) closes each level before the next begins, the level is embedded
as one sequential function: fetches are performed in queue order, each
appending its result and its `newnodes` list, and the merge then rebuilds
the queue.  The network is a parameter: `web addr` is the outcome of
`client.Get` plus `html.Parse` (`none` covering a network error or a parse
failure, the two silent-drop paths), already scraped into links. -/

/-- The address fields this snapshot's `*Address` exposes to `crawler.go`:
`String()` (the full text), `Host`, and `RobotsPath()`. -/
structure Address where
  full : String
  host : String
  robotsPath : String
deriving DecidableEq

/-- A link as `getLinks` hands it to the crawler: a possibly-nil target
address plus the nofollow flag. -/
structure GLink where
  address : Option Address
  nofollow : Bool
deriving DecidableEq

/-- A queue entry (`Node`): depth plus the link it was discovered by.  The
queue only ever holds nodes with a non-nil address (the seed is built from
the start URL and `merge` drops nil addresses), so the address is carried
directly. -/
structure QNode where
  depth : Int
  address : Address
  nofollow : Bool
deriving DecidableEq

/-- A node of a `newnodes` list (`linksToNodes`): the next depth paired with
a discovered link, whose address may still be nil. -/
structure PendingNode where
  depth : Int
  link : GLink
deriving DecidableEq

/-- A fetched, parsed page: the response fields `fetch` reads and the links
extracted from the tree. -/
structure PageResp where
  status : String
  statusCode : Int
  locationHeader : String
  links : List GLink
deriving DecidableEq

/-- The crawler state threaded through `work`: configuration, the seen set,
the current queue, the robots cache, the emitted results in channel order,
the pending `newnodes` lists, and a log of dispatched fetch addresses (the
observable "an HTTP fetch happened for this URL"). -/
structure Machine where
  maxDepth : Int
  respectNofollow : Bool
  excludePatterns : List (String → Bool)
  includePatterns : List (String → Bool)
  robotsUserAgent : String
  seen : List String
  queue : List QNode
  robots : RobotsCache
  results : List CResult
  pending : List (List PendingNode)
  fetchLog : List String

/-- Embeds `fetch` from `src/src/crawler/crawler.go` lines 202-247: record
the dispatch, and on success append the hydrated result and the `newnodes`
list built from the extracted links — replaced, on a 3xx status, by the
single synthetic link to the Location header (`MakeLink(node.Address,
location, "", false)`; `resolveLink` stands for the link constructor's
resolution of the Location against the request address, modelled from the
spec).  On a network or parse failure nothing is emitted and an empty
`newnodes` list is sent. -/
def fetch (web : String → Option PageResp) (resolveLink : Address → String → Address)
    (c : Machine) (node : QNode) : Machine :=
  let c := { c with fetchLog := c.fetchLog ++ [node.address.full] }
  match web node.address.full with
  | none => { c with pending := c.pending ++ [[]] }
  | some resp =>
    let result : CResult :=
      { address := node.address.full, depth := node.depth,
        status := resp.status, statusCode := resp.statusCode }
    let links :=
      if 300 ≤ resp.statusCode ∧ resp.statusCode < 400 then
        [{ address := some (resolveLink node.address resp.locationHeader),
           nofollow := false }]
      else resp.links
    { c with
      pending := c.pending ++ [links.map (fun l => PendingNode.mk (node.depth + 1) l)],
      results := c.results ++ [result] }

/-- Embeds the per-node `switch` of `work` (`src/src/crawler/crawler.go`
lines 144-169): drop for depth when `Depth > MaxDepth && MaxDepth >= 0`;
drop when the URL filter rejects; fetch robots.txt for a host never looked
up; emit a synthetic "Blocked by robots.txt" result — and skip the fetch —
when the cached matcher (a missing entry or a stored nil reading as allow)
denies the path for the configured robots user agent; otherwise dispatch the
fetch.  The wait-time case is timing only and changes no observable state.
-/
def workNode (web : String → Option PageResp) (robotsNet : String → Option RobotsHttp)
    (resolveLink : Address → String → Address) (c : Machine) (node : QNode) : Machine :=
  if depthSkip c.maxDepth node.depth then c
  else if ¬ willCrawl c.excludePatterns c.includePatterns node.address.full then c
  else
    let c1 :=
      if (cacheLookup c.robots node.address.host).isSome then c
      else { c with robots := CrawlerGo.addRobots robotsNet c.robots node.address.host }
    if ¬ testAgent ((cacheLookup c1.robots node.address.host).getD none)
        node.address.robotsPath c1.robotsUserAgent then
      { c1 with results := c1.results ++
          [{ makeResult node.address.full node.depth with status := "Blocked by robots.txt" }] }
    else fetch web resolveLink c1 node

/-- Embeds the per-node body of `merge` (`src/src/crawler/crawler.go` lines
184-199): drop nil addresses, drop seen addresses, drop nofollow links under
`RespectNofollow`; otherwise mark seen and append to the queue.  Note this
snapshot's `merge` does not consult the URL filter. -/
def mergeNode (c : Machine) (pn : PendingNode) : Machine :=
  match pn.link.address with
  | none => c
  | some addr =>
    if c.seen.contains addr.full then c
    else if pn.link.nofollow && c.respectNofollow then c
    else { c with seen := addr.full :: c.seen,
                  queue := c.queue ++ [QNode.mk pn.depth addr pn.link.nofollow] }

/-- Embeds `work` (`src/src/crawler/crawler.go` lines 144-182): run the
switch over every entry of the current queue, then `merge(awaiting)`: clear
the queue and fold every pending `newnodes` list into it. -/
def work (web : String → Option PageResp) (robotsNet : String → Option RobotsHttp)
    (resolveLink : Address → String → Address) (c : Machine) : Machine :=
  let c1 := c.queue.foldl (workNode web robotsNet resolveLink) c
  let c2 := { c1 with queue := [] }
  let c3 := c1.pending.foldl (fun acc ns => ns.foldl mergeNode acc) c2
  { c3 with pending := [] }

/-- Embeds the crawl loop of `Crawl` (`src/src/crawler/crawler.go` lines
71-76): `for len(c.queue) > 0 { c.work() }`, run for at most `fuel` levels
(each level strictly consumes the queue it was given, so any finite witness
web needs only finitely many). -/
def crawlLevels (web : String → Option PageResp) (robotsNet : String → Option RobotsHttp)
    (resolveLink : Address → String → Address) : Nat → Machine → Machine
  | 0, c => c
  | fuel + 1, c =>
    if c.queue.isEmpty then c
    else crawlLevels web robotsNet resolveLink fuel (work web robotsNet resolveLink c)

/-- Embeds the crawler state `Crawl` builds (`src/src/crawler/crawler.go`
lines 48-79): the queue holds the single seed node at depth 0, and — the
detail claim C4 turns on — `Seen` starts out empty: no seed is inserted
into it. -/
def crawlInit (maxDepth : Int) (respectNofollow : Bool)
    (excludePatterns includePatterns : List (String → Bool))
    (robotsUserAgent : String) (seed : Address) : Machine :=
  { maxDepth := maxDepth, respectNofollow := respectNofollow,
    excludePatterns := excludePatterns, includePatterns := includePatterns,
    robotsUserAgent := robotsUserAgent,
    seen := [],
    queue := [QNode.mk 0 seed false],
    robots := [], results := [], pending := [], fetchLog := [] }

end CrawlerGo

namespace Part001

/-! ## The `src/unnamed/part_001` state machine and runtime

`CrawlList` runs `for f := crawlStartQueue; f != nil; { f = f(c) }` in one
goroutine while fetch, newnodes-sender and merge goroutines run in parallel.
The `crawlfn` names are mirrored by `NextFn`. -/

/-- The control states of the `crawlfn` machine.  `halt` is the `nil`
return of `crawlStartQueue` (the loop exits and `c.results` is closed);
`stuck` marks the out-of-bounds head peek `c.queue[0]` on an empty queue,
which panics in Go. -/
inductive NextFn where
  | startQueue
  | start
  | checkRobots
  | pause
  | next
  | dispatch
  | await
  | nextQueue
  | halt
  | stuck
deriving DecidableEq

/-- A frontier node of this snapshot (`Node` embeds `*Link`): the depth and
the link's target address (`none` for a nil `*Address`) plus its nofollow
flag. -/
structure PNode where
  depth : Int
  address : Option String
  nofollow : Bool
deriving DecidableEq

/-- Embeds `linksToNodes` (`src/unnamed/part_001` lines 303-311): wrap every
link, nil targets included, into a node at the given depth. -/
def linksToNodes (depth : Int) (links : List FLink) : List PNode :=
  links.map (fun l => PNode.mk depth l.address l.nofollow)

/-- Embeds the per-node body of `merge` (`src/unnamed/part_001` lines
253-268) acting on the seen set and the next-level queue: skip nil and
filter-rejected addresses; under the mutex, skip seen addresses and —
when `RespectNofollow` is set — nofollow links; otherwise mark seen and
append the node. -/
def mergeLink (respectNofollow : Bool)
    (excludePatterns includePatterns : List (String → Bool))
    (acc : List String × List PNode) (node : PNode) : List String × List PNode :=
  match node.address with
  | none => acc
  | some a =>
    if ¬ willCrawl excludePatterns includePatterns a then acc
    else if acc.1.contains a then acc
    else if node.nofollow && respectNofollow then acc
    else (a :: acc.1, acc.2 ++ [node])

/-! ### The scheduler slice used by claim C3 -/

/-- A queue entry as `crawlCheckRobots` reads it: address text, host, and
robots path. -/
structure RNode where
  depth : Int
  address : String
  host : String
  robotsPath : String
deriving DecidableEq

/-- The state `crawlCheckRobots` touches: the queue, the robots cache, the
emitted results, and the configured robots user agent. -/
structure RSched where
  queue : List RNode
  robots : RobotsCache
  results : List CResult
  robotsUserAgent : String

/-- Embeds `crawlCheckRobots` (`src/unnamed/part_001` lines 200-211): fetch
robots.txt for a host with no cache entry; if the cached matcher (a missing
or nil entry reading as allow) denies the head entry's path for the robots
user agent, emit a synthetic result with status `Blocked by robots.txt` —
and then, in either branch, `return crawlDo`: the function hands control to
the dispatch state. -/
def crawlCheckRobots (robotsNet : String → Option RobotsHttp) (s : RSched) :
    RSched × NextFn :=
  match s.queue with
  | [] => (s, NextFn.stuck)
  | node :: _ =>
    let s1 := { s with robots := ensureRobots robotsNet s.robots node.host }
    if ¬ testAgent ((cacheLookup s1.robots node.host).getD none)
        node.robotsPath s1.robotsUserAgent then
      ({ s1 with results := s1.results ++
          [{ makeResult node.address node.depth with status := "Blocked by robots.txt" }] },
       NextFn.dispatch)
    else (s1, NextFn.dispatch)

/-- Embeds `crawlStart` (`src/unnamed/part_001` lines 186-198) as a pure
transition: wait if the inter-request delay has not elapsed (`waitPending`
carries the timing comparison), skip over-depth and filter-rejected heads,
and otherwise go to `crawlDo`.  No branch of the switch ever selects
`crawlCheckRobots`. -/
def crawlStart (waitPending : Bool) (maxDepth : Int)
    (excludePatterns includePatterns : List (String → Bool))
    (queue : List RNode) : NextFn :=
  match queue with
  | [] => NextFn.stuck
  | node :: _ =>
    if waitPending then NextFn.pause
    else if depthSkip maxDepth node.depth then NextFn.next
    else if ¬ willCrawl excludePatterns includePatterns node.address then NextFn.next
    else NextFn.dispatch

/-! ### The interleaved runtime used by claim C1

One machine state holds the scheduler's control state and shared data plus
every live goroutine: fetchers (with a program counter), pending
`newnodes`-sender goroutines, and the count of merge goroutines blocked on
`<-c.newnodes`.  One `Act` is one atomic step of one goroutine, so a list
of actions is one interleaving.  The config's `WaitTime` is taken as unset
(parse failure yields zero wait), which makes the `crawlWait` guard
`time.Since(c.LastRequestTime) < c.wait` always false. -/

/-- Configuration fields the runtime reads. -/
structure MCfg where
  connections : Nat
  maxDepth : Int
  respectNofollow : Bool
  excludePatterns : List (String → Bool)
  includePatterns : List (String → Bool)

/-- A fetched page as `fetch` observes it in this snapshot. -/
structure Page where
  status : String
  statusCode : Int
  locationHeader : String
  links : List FLink

/-- Program counter of a fetch goroutine: `ready` before the HTTP GET;
`emit r` after it has hydrated the result and spawned the goroutine that
sends `newnodes`, with only `c.results <- result` left to run; `finished`
after returning (its connection permit released). -/
inductive FPc where
  | ready
  | emit (r : CResult)
  | finished
deriving DecidableEq

/-- A fetch goroutine: the node it was dispatched for and its counter. -/
structure FetchTask where
  node : PNode
  pc : FPc
deriving DecidableEq

/-- The whole runtime state of the `part_001` crawler. -/
structure MState where
  sched : NextFn
  queue : List PNode
  nextq : List PNode
  seen : List String
  wg : Nat
  conn : Nat
  fetchers : List FetchTask
  senders : List (List PNode)
  waitingMerges : Nat
  resultsChan : List CResult

/-- One application of the current `crawlfn` by the scheduler goroutine
(`src/unnamed/part_001` lines 173-251).  `none` means the scheduler cannot
move: it is blocked (`wg.Wait` in `crawlAwait` with merges outstanding, a
full connection semaphore in `crawlDo`), it has exited (`halt`), or it would
panic (head peek of an empty queue). -/
def schedStep (cfg : MCfg) (s : MState) : Option MState :=
  match s.sched with
  | NextFn.startQueue =>
    some { s with sched := if s.queue.isEmpty then NextFn.halt else NextFn.start }
  | NextFn.start =>
    match s.queue with
    | [] => none
    | node :: _ =>
      match node.address with
      | none => none
      | some a =>
        if depthSkip cfg.maxDepth node.depth then some { s with sched := NextFn.next }
        else if ¬ willCrawl cfg.excludePatterns cfg.includePatterns a then
          some { s with sched := NextFn.next }
        else some { s with sched := NextFn.dispatch }
  | NextFn.dispatch =>
    match s.queue with
    | [] => none
    | node :: _ =>
      if s.conn < cfg.connections then
        some { s with conn := s.conn + 1,
                      fetchers := s.fetchers ++ [FetchTask.mk node FPc.ready],
                      wg := s.wg + 1,
                      waitingMerges := s.waitingMerges + 1,
                      sched := NextFn.next }
      else none
  | NextFn.next =>
    match s.queue with
    | [] => none
    | _ :: rest =>
      some { s with queue := rest,
                    sched := if rest.isEmpty then NextFn.await else NextFn.start }
  | NextFn.await =>
    if s.wg = 0 then some { s with sched := NextFn.nextQueue } else none
  | NextFn.nextQueue =>
    some { s with queue := s.nextq, nextq := [], sched := NextFn.startQueue }
  | NextFn.pause => some { s with sched := NextFn.start }
  | _ => none

/-- Fetcher `i` runs from its start through the spawn of its
`newnodes`-sender goroutine (`src/unnamed/part_001` lines 270-299): the GET,
hydration, redirect handling, and the `go func() { c.newnodes <- ... }()`
statement carry no intervening synchronization visible to other goroutines.
On a GET error the fetcher spawns a sender with an empty list and returns,
releasing its connection permit. -/
def fetchRunStep (web : String → Option Page) (resolve : String → String → String)
    (s : MState) (i : Nat) : Option MState :=
  match s.fetchers[i]? with
  | some (FetchTask.mk node FPc.ready) =>
    match node.address with
    | none => none
    | some a =>
      match web a with
      | none =>
        some { s with senders := s.senders ++ [[]],
                      fetchers := s.fetchers.set i (FetchTask.mk node FPc.finished),
                      conn := s.conn - 1 }
      | some resp =>
        let result : CResult :=
          { address := a, depth := node.depth,
            status := resp.status, statusCode := resp.statusCode }
        let links :=
          if 300 ≤ resp.statusCode ∧ resp.statusCode < 400 then
            [makeLink resolve a resp.locationHeader "" false]
          else resp.links
        some { s with
          senders := s.senders ++ [linksToNodes (node.depth + 1) links],
          fetchers := s.fetchers.set i (FetchTask.mk node (FPc.emit result)) }
  | _ => none

/-- Fetcher `i` performs `c.results <- result` and returns, releasing its
connection permit.  The send needs room in the results channel, whose buffer
capacity is 20 (`make(chan *Result, 20)`); the consumer is not draining
during the modelled window. -/
def fetchEmitStep (s : MState) (i : Nat) : Option MState :=
  match s.fetchers[i]? with
  | some (FetchTask.mk node (FPc.emit r)) =>
    if s.resultsChan.length < 20 then
      some { s with resultsChan := s.resultsChan ++ [r],
                    fetchers := s.fetchers.set i (FetchTask.mk node FPc.finished),
                    conn := s.conn - 1 }
    else none
  | _ => none

/-- A merge goroutine blocked on `<-c.newnodes` receives the payload of
sender `si`; the merge body then runs (its per-link mutex makes running it
without interruption a realizable schedule) and `wg.Done()` fires
(`src/unnamed/part_001` lines 240-243 and 253-268). -/
def rendezvousStep (cfg : MCfg) (s : MState) (si : Nat) : Option MState :=
  match s.senders[si]? with
  | none => none
  | some payload =>
    if s.waitingMerges = 0 then none
    else
      let folded := payload.foldl
        (mergeLink cfg.respectNofollow cfg.excludePatterns cfg.includePatterns)
        (s.seen, s.nextq)
      some { s with senders := s.senders.eraseIdx si,
                    seen := folded.1,
                    nextq := folded.2,
                    waitingMerges := s.waitingMerges - 1,
                    wg := s.wg - 1 }

/-- One atomic step of one goroutine. -/
inductive Act where
  | sched
  | fetchRun (i : Nat)
  | fetchEmit (i : Nat)
  | rendezvous (si : Nat)

/-- Dispatch one action against the machine state. -/
def mstep (web : String → Option Page) (resolve : String → String → String)
    (cfg : MCfg) (s : MState) : Act → Option MState
  | Act.sched => schedStep cfg s
  | Act.fetchRun i => fetchRunStep web resolve s i
  | Act.fetchEmit i => fetchEmitStep s i
  | Act.rendezvous si => rendezvousStep cfg s si

/-- Replay an interleaving: run the actions in order, failing if any action
is not enabled. -/
def mrun (web : String → Option Page) (resolve : String → String → String)
    (cfg : MCfg) : MState → List Act → Option MState
  | s, [] => some s
  | s, a :: rest =>
    match mstep web resolve cfg s a with
    | none => none
    | some s2 => mrun web resolve cfg s2 rest

/-- The machine state `CrawlList` builds (`src/unnamed/part_001` lines
62-103) for a seed list: every seed address is marked seen before the state
machine starts. -/
def crawlListInit (seeds : List PNode) : MState :=
  { sched := NextFn.startQueue, queue := seeds, nextq := [],
    seen := seeds.foldl (fun acc n => match n.address with
      | some a => acc ++ [a]
      | none => acc) [],
    wg := 0, conn := 0, fetchers := [], senders := [],
    waitingMerges := 0, resultsChan := [] }

end Part001

namespace Sched

/-! ## The scheduler control graph of `part_001`, for claim C10

Safety of the head peek depends only on the scheduler's control state and
the two queues, so those are modelled relationally: every data- or
time-dependent branch of `crawlStart` becomes a nondeterministic choice, and
concurrent merges may append to the next-level queue at any moment.  Every
behaviour of the real scheduler is a path of this relation. -/

/-- Scheduler control state plus the two queues. -/
structure Config where
  st : Part001.NextFn
  queue : List Part001.PNode
  nextq : List Part001.PNode

/-- The transitions of the `crawlfn` machine (`src/unnamed/part_001` lines
173-251), one constructor per `return` site, plus `mergeAppend` for the
concurrent growth of `nextqueue`.  `crawlStartQueue` guards entry to
`crawlStart` with `len(c.queue) > 0`; `crawlNext` pops the head and
re-enters `crawlStart` only when the remainder is non-empty. -/
inductive Step : Config → Config → Prop
  | startQueueEnter (q nq) : q ≠ [] →
      Step ⟨Part001.NextFn.startQueue, q, nq⟩ ⟨Part001.NextFn.start, q, nq⟩
  | startQueueHalt (nq) :
      Step ⟨Part001.NextFn.startQueue, [], nq⟩ ⟨Part001.NextFn.halt, [], nq⟩
  | startToPause (q nq) :
      Step ⟨Part001.NextFn.start, q, nq⟩ ⟨Part001.NextFn.pause, q, nq⟩
  | startToNext (q nq) :
      Step ⟨Part001.NextFn.start, q, nq⟩ ⟨Part001.NextFn.next, q, nq⟩
  | startToDispatch (q nq) :
      Step ⟨Part001.NextFn.start, q, nq⟩ ⟨Part001.NextFn.dispatch, q, nq⟩
  | pauseToStart (q nq) :
      Step ⟨Part001.NextFn.pause, q, nq⟩ ⟨Part001.NextFn.start, q, nq⟩
  | dispatchToNext (q nq) :
      Step ⟨Part001.NextFn.dispatch, q, nq⟩ ⟨Part001.NextFn.next, q, nq⟩
  | nextMore (n m rest nq) :
      Step ⟨Part001.NextFn.next, n :: m :: rest, nq⟩ ⟨Part001.NextFn.start, m :: rest, nq⟩
  | nextDrained (n nq) :
      Step ⟨Part001.NextFn.next, [n], nq⟩ ⟨Part001.NextFn.await, [], nq⟩
  | awaitDone (q nq) :
      Step ⟨Part001.NextFn.await, q, nq⟩ ⟨Part001.NextFn.nextQueue, q, nq⟩
  | promote (q nq) :
      Step ⟨Part001.NextFn.nextQueue, q, nq⟩ ⟨Part001.NextFn.startQueue, nq, []⟩
  | mergeAppend (st q nq ns) :
      Step ⟨st, q, nq⟩ ⟨st, q, nq ++ ns⟩

/-- The control states whose body peeks `c.queue[0]` or slices `c.queue[1:]`
(`crawlStart`, `crawlCheckRobots`, `crawlDo`, `crawlNext`), together with
`crawlWait`, which re-enters `crawlStart` without touching the queue. -/
def headSensitive : Part001.NextFn → Bool
  | Part001.NextFn.start => true
  | Part001.NextFn.checkRobots => true
  | Part001.NextFn.pause => true
  | Part001.NextFn.dispatch => true
  | Part001.NextFn.next => true
  | _ => false

/-- The invariant: every head-sensitive control state is reached with a
non-empty current queue. -/
def Inv (c : Config) : Prop := headSensitive c.st = true → c.queue ≠ []

end Sched

/-! ## Concrete scenario data

Closed inputs on which the embedded code is evaluated: a two-page site, a
self-linking page, a robots-denied entry, and small documents and pattern
sets.  They are shared by the claim theorems and witnesses below. -/

/-- The order property claimed of emitted results: depths never decrease
along the emission order. -/
def nonDecreasingDepths : List Int → Bool
  | [] => true
  | [_] => true
  | a :: b :: rest => decide (a ≤ b) && nonDecreasingDepths (b :: rest)

/-- A matcher denying every path for every agent. -/
def denyAll : Matcher := fun _ _ => false

/-- A matcher allowing every path for every agent. -/
def allowAll : Matcher := fun _ _ => true

namespace Part001

/-- Two-page site: the seed page links to `b`, which has no links. -/
def web1 : String → Option Page := fun u =>
  if u = "http://h/a" then
    some { status := "200 OK", statusCode := 200, locationHeader := "",
           links := [{ address := some "http://h/b", anchorText := "b", nofollow := false }] }
  else if u = "http://h/b" then
    some { status := "200 OK", statusCode := 200, locationHeader := "", links := [] }
  else none

/-- Unbounded depth, no filters, default connection cap. -/
def cfg1 : MCfg :=
  { connections := 20, maxDepth := -1, respectNofollow := false,
    excludePatterns := [], includePatterns := [] }

/-- A stand-in resolver for the scenario (nothing in it is relative). -/
def resolve1 : String → String → String := fun _ r => r

/-- The seed node of the two-page site. -/
def seed1 : PNode := { depth := 0, address := some "http://h/a", nofollow := false }

/-- The interleaving behind claim C1: dispatch the seed fetch; the fetcher
runs up to (and including) spawning its `newnodes` sender but is preempted
before its `c.results <- result` send; the merge completes, `wg.Wait`
passes, the next level is promoted and dispatched; the depth-1 fetcher runs
to completion and emits first; only then does the stalled depth-0 fetcher
emit. -/
def trace1 : List Act :=
  [Act.sched, Act.sched, Act.sched, Act.sched,
   Act.fetchRun 0, Act.rendezvous 0,
   Act.sched, Act.sched, Act.sched, Act.sched, Act.sched, Act.sched,
   Act.fetchRun 1, Act.fetchEmit 1, Act.fetchEmit 0]

/-- A robots-denied frontier entry. -/
def rnode3 : RNode :=
  { depth := 0, address := "http://h/private", host := "h", robotsPath := "/private" }

/-- Scheduler state whose head entry's host has a cached matcher denying its
path. -/
def rsched3 : RSched :=
  { queue := [rnode3], robots := [("h", some denyAll)], results := [],
    robotsUserAgent := "X" }

/-- Robots network that always fails (never consulted when a cache entry
exists). -/
def rnet3 : String → Option RobotsHttp := fun _ => none

end Part001

namespace CrawlerGo

/-- The self-linking seed address. -/
def selfAddr : Address := { full := "http://h/", host := "h", robotsPath := "/" }

/-- One-page site whose page links back to itself. -/
def webSelf : String → Option PageResp := fun u =>
  if u = "http://h/" then
    some { status := "200 OK", statusCode := 200, locationHeader := "",
           links := [{ address := some selfAddr, nofollow := false }] }
  else none

/-- Robots network that always fails: the nil cache entry reads as allow. -/
def rnetFail : String → Option RobotsHttp := fun _ => none

/-- A stand-in link resolver for the scenarios (no redirects occur). -/
def resolveId : Address → String → Address := fun a _ => a

/-- The robots-denied entry, as this snapshot's queue node. -/
def privNode : QNode :=
  { depth := 0,
    address := { full := "http://h/private", host := "h", robotsPath := "/private" },
    nofollow := false }

/-- Machine state whose robots cache denies `privNode`'s path. -/
def denyMachine : Machine :=
  { crawlInit (-1) false [] [] "X" selfAddr with
      queue := [privNode], robots := [("h", some denyAll)] }

/-- Robots response for a host whose robots.txt request yields HTTP 403:
the external `robotstxt.FromResponse` builds a matcher from the status and
body rather than failing, modelled here as a deny-all matcher. -/
def rnet403 : String → Option RobotsHttp :=
  fun _ => some { statusCode := 403, fromResponse := some denyAll }

/-- A second, healthy robots network, used to observe that a cached host is
never fetched again. -/
def rnet200 : String → Option RobotsHttp :=
  fun _ => some { statusCode := 200, fromResponse := some allowAll }

end CrawlerGo

/-- The discovered link used by the `MaxDepth` scenarios: a fresh address
passing every filter. -/
def link2 : FLink := { address := some "http://h/next", anchorText := "", nofollow := false }

/-- A parse function for the document scenarios: the href becomes the path
of a relative URL carrying a fragment (so that fragment stripping is
observable). -/
def pu9 : String → URL :=
  fun s => { scheme := "", host := "", path := s, query := "", fragment := "frag" }

/-- The absolute base (request) URL of the document scenarios. -/
def base9 : URL := { scheme := "http", host := "h", path := "/", query := "", fragment := "" }

/-- A one-anchor document without any `rel` attribute anywhere. -/
def doc9 : HNode :=
  HNode.elem "html" [] [HNode.elem "a" [("href", "/x")] [HNode.text "x"]]

/-- The link `getLinks` extracts from `doc9`. -/
def link9 : ResultGo.GoLink :=
  { target := { scheme := "http", host := "h", path := "/x", query := "", fragment := "" },
    anchorText := "x", nofollow := false }

/-- An `<a>` element whose own `rel` attribute is `nofollow`. -/
def aElem7 : HNode :=
  HNode.elem "a" [("href", "/x"), ("rel", "nofollow")] [HNode.text "x"]

/-- A document whose root carries no `rel` attribute but whose single `<a>`
is marked `rel=nofollow`. -/
def doc7 : HNode :=
  HNode.elem "html" [] [HNode.elem "body" [] [aElem7]]

/-- A nofollow node as the `part_001` merge receives it. -/
def nfNode7 : Part001.PNode := { depth := 1, address := some "http://h/x", nofollow := true }

/-- A seed node for the C10 witness machine. -/
def pnW : Part001.PNode := { depth := 0, address := some "http://h/s", nofollow := false }

/-! ## Claim theorems -/

/-- C1: the claim says every emitted result's depth is at least the depth
of every earlier-emitted result, the level-promotion barrier ensuring no
depth-`d+1` result is emitted before every depth-`d` fetcher completes.  In
the `part_001` runtime the barrier (`crawlAwait`, waiting on the merge
wait-group) does not cover the fetchers' result sends: replaying a legal
interleaving of the two-page site puts the depth-1 result into the results
channel before the depth-0 result, so the channel (FIFO, read by `Next`)
yields depths `1, 0` — not non-decreasing. -/
theorem c1_depth_order_race_part001 :
    ((Part001.mrun Part001.web1 Part001.resolve1 Part001.cfg1
        (Part001.crawlListInit [Part001.seed1]) Part001.trace1).map
      (fun s => s.resultsChan.map (fun r => r.depth)) = some [1, 0]) ∧
    nonDecreasingDepths [1, 0] = false :=
  ⟨rfl, rfl⟩

/-- C2: the claim says `MaxDepth < 0` makes the crawl unbounded (no entry
dropped for depth).  That holds of the dispatch guard shared by
`crawler.go`'s `work` and `part_001`'s `crawlStart` (first conjunct, for
every depth), and `MaxDepth = 0` does keep only depth 0 there (second and
third conjuncts); but `part_000`'s `merge` enqueues nothing unless
`depth < MaxDepth`, so with `MaxDepth = -1` a depth-0 entry's outgoing link
— which passes every other check, as the last conjunct shows by flipping
only `MaxDepth` to `1` — is dropped and the crawl never leaves the seeds.
-/
theorem c2_negative_maxdepth_drops_links_in_part000 :
    (∀ d : Int, depthSkip (-1) d = false) ∧
    depthSkip 0 0 = false ∧
    depthSkip 0 1 = true ∧
    Part000.merge 0 (-1) false [] [] [] [] [link2] = ([], []) ∧
    Part000.merge 0 1 false [] [] [] [] [link2] = (["http://h/next"], ["http://h/next"]) := by
  refine ⟨?_, rfl, rfl, rfl, rfl⟩
  intro d
  simp only [depthSkip, decide_eq_false_iff_not]
  rintro ⟨-, h⟩
  omega

/-- C4: the claim says every seed address is inserted into the seen set
before the first transition, so a page linking back to a seed never causes
a second fetch or a second result for it.  `crawler.go`'s `Crawl` never
seeds `Seen`: on the self-linking site the seed is fetched twice and two
results carry its address (first two conjuncts).  Seeding the seen set by
hand removes the refetch (third conjunct), which is exactly what
`CrawlList` of the `part_001` snapshot does (last conjunct). -/
theorem c4_unseeded_seen_refetches_seed_in_crawlergo :
    ((CrawlerGo.crawlLevels CrawlerGo.webSelf CrawlerGo.rnetFail CrawlerGo.resolveId 3
        (CrawlerGo.crawlInit (-1) false [] [] "Bot" CrawlerGo.selfAddr)).results.map
      (fun r => r.address) = ["http://h/", "http://h/"]) ∧
    ((CrawlerGo.crawlLevels CrawlerGo.webSelf CrawlerGo.rnetFail CrawlerGo.resolveId 3
        (CrawlerGo.crawlInit (-1) false [] [] "Bot" CrawlerGo.selfAddr)).fetchLog
      = ["http://h/", "http://h/"]) ∧
    ((CrawlerGo.crawlLevels CrawlerGo.webSelf CrawlerGo.rnetFail CrawlerGo.resolveId 3
        { CrawlerGo.crawlInit (-1) false [] [] "Bot" CrawlerGo.selfAddr with
            seen := ["http://h/"] }).results.map (fun r => r.address) = ["http://h/"]) ∧
    (Part001.crawlListInit [Part001.seed1]).seen = ["http://h/a"] :=
  ⟨rfl, rfl, rfl, rfl⟩

/-- C8: the claim says a robots.txt outcome of HTTP error, non-200 status,
or parse failure leaves a null matcher cached, every later query for the
host answering allow, and a cached entry is never refreshed.  `part_001`'s
`addRobots` does exactly that for a 403 (first two conjuncts), and the
cache-miss guard never refetches a cached host (last conjunct); but
`crawler.go`'s `addRobots` never looks at the status code: on the same 403
it caches the matcher `robotstxt.FromResponse` built (third conjunct), and
the cached matcher answers deny, not allow (fourth conjunct). -/
theorem c8_crawlergo_caches_matcher_on_non200 :
    cacheLookup (Part001.addRobots CrawlerGo.rnet403 [] "h") "h" = some none ∧
    testAgent ((cacheLookup (Part001.addRobots CrawlerGo.rnet403 [] "h") "h").getD none)
      "/p" "X" = true ∧
    cacheLookup (CrawlerGo.addRobots CrawlerGo.rnet403 [] "h") "h" = some (some denyAll) ∧
    testAgent ((cacheLookup (CrawlerGo.addRobots CrawlerGo.rnet403 [] "h") "h").getD none)
      "/p" "X" = false ∧
    Part001.ensureRobots CrawlerGo.rnet200 (Part001.addRobots CrawlerGo.rnet403 [] "h") "h"
      = Part001.addRobots CrawlerGo.rnet403 [] "h" :=
  ⟨rfl, rfl, rfl, rfl, rfl⟩

/-- C3: the claim says a frontier entry denied by its host's cached matcher
gets exactly one synthetic `Blocked by robots.txt` result and is NOT
fetched.  `crawler.go`'s `work` behaves that way (last two conjuncts: one
blocked result, empty fetch log).  In `part_001`, however, `crawlStart`
never routes to `crawlCheckRobots` at all (first conjunct), and
`crawlCheckRobots` itself, after emitting the blocked result for the denied
head entry (second conjunct), returns `crawlDo` (third conjunct) — the
state that dispatches the fetch of that same head entry. -/
theorem c3_robots_denied_entry_still_dispatched_in_part001 :
    (∀ (w : Bool) (md : Int) (ex incl : List (String → Bool)) (q : List Part001.RNode),
        Part001.crawlStart w md ex incl q ≠ Part001.NextFn.checkRobots) ∧
    ((Part001.crawlCheckRobots Part001.rnet3 Part001.rsched3).1.results.map
        (fun r => r.status) = ["Blocked by robots.txt"]) ∧
    (Part001.crawlCheckRobots Part001.rnet3 Part001.rsched3).2 = Part001.NextFn.dispatch ∧
    ((CrawlerGo.workNode CrawlerGo.webSelf CrawlerGo.rnetFail CrawlerGo.resolveId
        CrawlerGo.denyMachine CrawlerGo.privNode).results.map (fun r => r.status)
      = ["Blocked by robots.txt"]) ∧
    (CrawlerGo.workNode CrawlerGo.webSelf CrawlerGo.rnetFail CrawlerGo.resolveId
        CrawlerGo.denyMachine CrawlerGo.privNode).fetchLog = [] := by
  refine ⟨?_, rfl, rfl, rfl, rfl⟩
  intro w md ex incl q
  cases q with
  | nil => simp [Part001.crawlStart]
  | cons n rest =>
    simp only [Part001.crawlStart]
    split
    · simp
    · split
      · simp
      · split
        · simp
        · simp

/-- C7: the claim says each extracted Link's nofollow flag is true exactly
when that `<a>` element's own `rel` attribute contains `nofollow`, and that
under `RespectNofollow` the merge drops nofollow links.  The merge half
holds of `part_001`'s `merge` (last two conjuncts: the nofollow node is
dropped with `RespectNofollow` and kept without).  But `getLinks` in
`result.go` reads `rel` from the document node `n` it was handed, not from
the `<a>`: on a document whose sole `<a>` says `rel=nofollow` (first
conjunct) while the root has no `rel`, the extracted link's nofollow flag is
false (second conjunct). -/
theorem c7_nofollow_read_from_document_root_in_resultgo :
    getAttribute "rel" aElem7 = "nofollow" ∧
    (ResultGo.getLinks pu9 base9 doc7).map (fun l => l.nofollow) = [false] ∧
    Part001.mergeLink true [] [] ([], []) nfNode7 = ([], []) ∧
    Part001.mergeLink false [] [] ([], []) nfNode7 = (["http://h/x"], [nfNode7]) :=
  ⟨rfl, rfl, rfl, rfl⟩

/-- C5: the URL filter accepts a URL exactly when no exclude pattern
matches it and either some include pattern matches it or the include list
is empty — the precedence exclude, then include, then
reject-on-non-empty-include, then accept. -/
theorem c5_willCrawl_precedence
    (excludePatterns includePatterns : List (String → Bool)) (u : String) :
    willCrawl excludePatterns includePatterns u = true ↔
      ((∀ p ∈ excludePatterns, p u = false) ∧
       ((∃ p ∈ includePatterns, p u = true) ∨ includePatterns = [])) := by
  simp only [willCrawl]
  by_cases hex : excludePatterns.any (fun p => p u) = true
  · rw [if_pos hex]
    constructor
    · intro h; cases h
    · rintro ⟨hall, -⟩
      rcases List.any_eq_true.mp hex with ⟨p, hp, hpu⟩
      rw [hall p hp] at hpu; cases hpu
  · have hexAll : ∀ p ∈ excludePatterns, p u = false := by
      intro p hp
      cases hpu : p u
      · rfl
      · exact absurd (List.any_eq_true.mpr ⟨p, hp, hpu⟩) hex
    rw [if_neg hex]
    by_cases hin : includePatterns.any (fun p => p u) = true
    · rw [if_pos hin]
      exact ⟨fun _ => ⟨hexAll, Or.inl (List.any_eq_true.mp hin)⟩, fun _ => rfl⟩
    · have hinAll : ∀ p ∈ includePatterns, p u = false := by
        intro p hp
        cases hpu : p u
        · rfl
        · exact absurd (List.any_eq_true.mpr ⟨p, hp, hpu⟩) hin
      rw [if_neg hin]
      by_cases hlen : includePatterns.length > 0
      · rw [if_pos hlen]
        constructor
        · intro h; cases h
        · rintro ⟨-, hor⟩
          rcases hor with ⟨p, hp, hpu⟩ | hempty
          · rw [hinAll p hp] at hpu; cases hpu
          · rw [hempty] at hlen; cases hlen
      · rw [if_neg hlen]
        have hempty : includePatterns = [] :=
          List.length_eq_zero.mp (Nat.eq_zero_of_not_pos hlen)
        exact ⟨fun _ => ⟨hexAll, Or.inr hempty⟩, fun _ => rfl⟩

/-- C6: `fetch` hands control of redirects to the frontier: on a 3xx status
the emitted result resolves to the Location header resolved against the
request address, and the list handed to the merge stage is replaced by the
single synthetic link to that resolved Location (empty anchor text, not
nofollow) while the result's own extracted links are kept; on any other
status the result resolves to the request address itself and the extracted
links are handed over unchanged. -/
theorem c6_fetch_redirect_resolution (resolve : String → String → String)
    (addrFull : String) (statusCode : Int) (locationHeader : String)
    (extracted : List FLink) :
    Part001.fetchAssemble resolve addrFull statusCode locationHeader extracted =
      if 300 ≤ statusCode ∧ statusCode < 400 then
        { resolvesTo := resolve addrFull locationHeader,
          handed := [{ address := some (resolve addrFull locationHeader),
                       anchorText := "", nofollow := false }],
          resultLinks := extracted }
      else
        { resolvesTo := addrFull, handed := extracted, resultLinks := extracted } :=
  rfl

/-- Resolution against an absolute base yields an absolute URL: either the
reference has a scheme of its own, or it inherits the base's. -/
theorem resolveReference_isAbs (base ref : URL) (h : base.isAbs = true) :
    (resolveReference base ref).isAbs = true := by
  unfold resolveReference
  split
  · assumption
  · split
    · simpa [URL.isAbs] using h
    · simpa [URL.isAbs] using h

/-- C9: every link extracted from a fetched page targets an absolute URL —
the href resolved against the request URL — with an empty fragment
component. -/
theorem c9_extracted_links_absolute_and_fragment_free
    (parseURL : String → URL) (base : URL) (doc : HNode)
    (hbase : base.isAbs = true) :
    ∀ l ∈ ResultGo.getLinks parseURL base doc,
      l.target.fragment = "" ∧ l.target.isAbs = true := by
  intro l hl
  simp only [ResultGo.getLinks, List.mem_map] at hl
  obtain ⟨a, -, rfl⟩ := hl
  refine ⟨rfl, ?_⟩
  simpa [URL.isAbs] using
    resolveReference_isAbs base (parseURL (getAttribute "href" a)) hbase

/-- Witness for C9: on the concrete one-anchor document, whose href is
relative and carries a fragment, the extracted link is fragment-free and
absolute. -/
theorem c9_extracted_links_witness :
    link9.target.fragment = "" ∧ link9.target.isAbs = true :=
  c9_extracted_links_absolute_and_fragment_free pu9 base9 doc9 rfl link9 (by decide)

/-- One scheduler transition preserves the head-safety invariant: every
transition entering a head-sensitive state either carries a non-emptiness
guard (`crawlStartQueue`, the still-populated branch of `crawlNext`) or
leaves the queue of an already head-sensitive state untouched. -/
theorem sched_step_preserves_inv (a b : Sched.Config) (h : Sched.Step a b)
    (ha : Sched.Inv a) : Sched.Inv b := by
  cases h with
  | startQueueEnter q nq hq => exact fun _ => hq
  | startQueueHalt nq => intro h2; cases h2
  | startToPause q nq => exact fun _ => ha rfl
  | startToNext q nq => exact fun _ => ha rfl
  | startToDispatch q nq => exact fun _ => ha rfl
  | pauseToStart q nq => exact fun _ => ha rfl
  | dispatchToNext q nq => exact fun _ => ha rfl
  | nextMore n m rest nq => exact fun _ => by simp
  | nextDrained n nq => intro h2; cases h2
  | awaitDone q nq => intro h2; cases h2
  | promote q nq => intro h2; cases h2
  | mergeAppend st q nq ns => exact ha

/-- C10: from any initial queue, every reachable scheduler configuration
whose control state peeks the queue head (`crawlStart`, `crawlCheckRobots`,
`crawlDo`) or slices it (`crawlNext`) — or re-enters one of those without
touching the queue (`crawlWait`) — has a non-empty current queue, so the
peek `c.queue[0]` is in bounds and cannot panic. -/
theorem c10_head_peek_always_in_bounds (q0 : List Part001.PNode) (c : Sched.Config)
    (hreach : Relation.ReflTransGen Sched.Step
      (Sched.Config.mk Part001.NextFn.startQueue q0 []) c)
    (hpeek : Sched.headSensitive c.st = true) : c.queue ≠ [] := by
  refine (?_ : Sched.Inv c) hpeek
  clear hpeek
  induction hreach with
  | refl => intro h2; cases h2
  | tail hab hbc ih => exact sched_step_preserves_inv _ _ hbc ih

/-- Witness for C10: after the machine's very first transition
(`crawlStartQueue` entering `crawlStart` on a one-node queue) the queue is
non-empty. -/
theorem c10_head_peek_witness :
    (Sched.Config.mk Part001.NextFn.start [pnW] []).queue ≠ [] :=
  c10_head_peek_always_in_bounds [pnW] (Sched.Config.mk Part001.NextFn.start [pnW] [])
    (Relation.ReflTransGen.single (Sched.Step.startQueueEnter [pnW] [] (by decide)))
    rfl

end Crawl
